import Mathlib

/-!
Shallow embedding of `Chris_McCathern_Programming13.py`.

The SQLite table `population (city TEXT, year INTEGER, population INTEGER,
PRIMARY KEY (city, year))` is modelled as a list of rows in insertion
order.  `INSERT OR IGNORE` is a no-op when the key is present;
`INSERT OR REPLACE` deletes any row with the same key and appends the new
row at the end (SQLite assigns a fresh rowid, so the replaced row moves to
the end of the scan order).

Python's global random generator is modelled as a stream `u : ℕ → ℚ` of
unit draws in `[0,1)`: `random.seed(rng_seed)` fixes the stream once for
the whole run, and `random.uniform(a, b)` returns `a + (b - a) * u k`
where `k` is the number of draws consumed so far.  Float arithmetic is
modelled over `ℚ`; Python's `round` (banker's rounding, half to even) is
`roundHalfEven`.
-/

/-- A row of the `population` table: (city, year, population). -/
abbrev Row : Type := String × ℤ × ℤ

/-- The `population` table, rows in scan (insertion) order. -/
abbrev Store : Type := List Row

/-- Does the store hold a row with primary key `(c, y)`? -/
def hasKey (c : String) (y : ℤ) (s : Store) : Bool :=
  s.any (fun r => decide (r.1 = c ∧ r.2.1 = y))

/-- `INSERT OR IGNORE INTO population VALUES (c, y, v)`. -/
def insertOrIgnore (c : String) (y : ℤ) (v : ℤ) (s : Store) : Store :=
  if hasKey c y s then s else s ++ [(c, y, v)]

/-- `INSERT OR REPLACE INTO population VALUES (c, y, v)`: the conflicting
row (if any) is deleted and a fresh row is appended. -/
def insertOrReplace (c : String) (y : ℤ) (v : ℤ) (s : Store) : Store :=
  s.filter (fun r => !(decide (r.1 = c ∧ r.2.1 = y))) ++ [(c, y, v)]

/-- All rows of city `c`, in scan order. -/
def rowsOf (c : String) (s : Store) : List Row :=
  s.filter (fun r => decide (r.1 = c))

/-- The value stored under key `(c, y)`: the last matching row in scan
order (under the primary key there is at most one). -/
def lookupVal (c : String) (y : ℤ) (s : Store) : Option ℤ :=
  ((s.filter (fun r => decide (r.1 = c ∧ r.2.1 = y))).getLast?).map (fun r => r.2.2)

/-- `SELECT city, population FROM population WHERE year = 2023`:
the simulator's base rows, in scan order.  The year is the literal 2023. -/
def baseRows (s : Store) : List (String × ℤ) :=
  (s.filter (fun r => decide (r.2.1 = 2023))).map (fun r => (r.1, r.2.2))

/-- `SELECT DISTINCT city FROM population ORDER BY city`. -/
def distinctCities (s : Store) : List String :=
  ((s.map (fun r => r.1)).dedup).insertionSort (fun a b => a ≤ b)

/-- `SELECT year, population FROM population WHERE city = ? ORDER BY year`. -/
def seriesFor (c : String) (s : Store) : List (ℤ × ℤ) :=
  ((rowsOf c s).map (fun r => (r.2.1, r.2.2))).insertionSort (fun a b => a.1 ≤ b.1)

/-- Python's `round` with no digits argument: round half to even.
`q.num / q.den` is the floor of `q` (see `Rat.floor_eq_div`), written out
so that the definition evaluates by kernel reduction. -/
def roundHalfEven (q : ℚ) : ℤ :=
  let f : ℤ := q.num / (q.den : ℤ)
  let r := q - (f : ℚ)
  if r < 1/2 then f
  else if 1/2 < r then f + 1
  else if f % 2 = 0 then f else f + 1

/-- `random.uniform(a, b)` given the next unit draw `x`. -/
def uniform (a b x : ℚ) : ℚ := a + (b - a) * x

/-- The inner `for year in range(start_year, start_year + years)` loop of
`simulate_growth`, for one city: `n` years remain, `sy` is the current
year, `k` the number of unit draws consumed so far, `pop` the running
`population` variable.  Each year draws a rate, updates
`population = max(1, int(round(population * (1 + growth_rate))))` and
upserts `(city, year, population)`. -/
def cityYears (u : ℕ → ℚ) (rmin rmax : ℚ) (city : String) :
    ℕ → ℤ → ℕ → ℤ → Store → Store
  | 0, _, _, _, s => s
  | n + 1, sy, k, pop, s =>
    let rate := uniform rmin rmax (u k)
    let pop2 := max 1 (roundHalfEven ((pop : ℚ) * (1 + rate)))
    cityYears u rmin rmax city n (sy + 1) (k + 1) pop2 (insertOrReplace city sy pop2 s)

/-- The outer `for city, pop in rows` loop of `simulate_growth`: the draw
counter `k` is threaded through, so the single generator is shared across
all cities (entity-major, year-minor consumption). -/
def simFold (u : ℕ → ℚ) (sy : ℤ) (n : ℕ) (rmin rmax : ℚ) :
    List (String × ℤ) → Store → ℕ → Store
  | [], s, _ => s
  | (c, v) :: rest, s, k =>
    simFold u sy n rmin rmax rest (cityYears u rmin rmax c n sy k v s) (k + n)

/-- `simulate_growth(conn, start_year, years, rate_min, rate_max, rng_seed)`:
reads the year-2023 base rows, seeds the generator once (fixing the stream
`u`), then walks each city forward `years` years. -/
def simulate_growth (u : ℕ → ℚ) (start_year : ℤ) (years : ℕ)
    (rmin rmax : ℚ) (s : Store) : Store :=
  simFold u start_year years rmin rmax (baseRows s) s 0

/-- The hardcoded city dictionary of `insert_2023_data`, in Python dict
insertion order. -/
def cities2023 : List (String × ℤ) :=
  [("Jacksonville", 985000), ("Miami", 451000), ("Tampa", 398000),
   ("Orlando", 317000), ("St. Petersburg", 261000), ("Hialeah", 220000),
   ("Tallahassee", 202000), ("Port St. Lucie", 241000),
   ("Cape Coral", 216000), ("Fort Lauderdale", 184000)]

/-- The seeding loop body: one `INSERT OR IGNORE` per city at year 2023. -/
def seedFold : List (String × ℤ) → Store → Store
  | [], s => s
  | (c, v) :: rest, s => seedFold rest (insertOrIgnore c 2023 v s)

/-- `insert_2023_data(conn)`. -/
def insert_2023_data (s : Store) : Store :=
  seedFold cities2023 s

/-- The observable outcome of `show_city_plot`. -/
inductive PlotResult : Type
  | noCities : PlotResult
  | plotted : String → List (ℤ × ℤ) → PlotResult
  deriving DecidableEq

/-- Python's `str.strip()` with no argument: drop leading and trailing
whitespace characters. -/
def pyStrip (s : String) : String :=
  ⟨((s.data.dropWhile Char.isWhitespace).reverse.dropWhile Char.isWhitespace).reverse⟩

/-- `show_city_plot(conn)`: `inputs` is the stream of pending stdin lines;
the result also carries the unconsumed input lines and the (unmodified)
store, to make "no prompt issued" and "store unchanged" observable. -/
def show_city_plot (s : Store) (inputs : List String) :
    PlotResult × List String × Store :=
  let cities := distinctCities s
  if cities = [] then (PlotResult.noCities, inputs, s)
  else
    let choice := pyStrip (inputs.headD "")
    let chosen := if choice ∈ cities then choice else cities.headD ""
    (PlotResult.plotted chosen (seriesFor chosen s), inputs.tail, s)

/-- The closed-form trajectory of a single city: `valAfter u rmin rmax k0 j pop`
is the `population` value after `j` simulated years starting from base value
`pop`, when the city's first unit draw is stream index `k0`. -/
def valAfter (u : ℕ → ℚ) (rmin rmax : ℚ) (k0 : ℕ) : ℕ → ℤ → ℤ
  | 0, pop => pop
  | j + 1, pop =>
    max 1 (roundHalfEven
      ((valAfter u rmin rmax k0 j pop : ℚ) * (1 + uniform rmin rmax (u (k0 + j)))))

/-- The years (in scan order) stored for city `c`. -/
def yearsOf (c : String) (s : Store) : List ℤ :=
  (rowsOf c s).map (fun r => r.2.1)

example : roundHalfEven (7/2) = 4 := by with_unfolding_all decide
example : roundHalfEven (5/2) = 2 := by with_unfolding_all decide
example : roundHalfEven (985000 : ℚ) = 985000 := by with_unfolding_all decide
example : insert_2023_data [] = cities2023.map (fun cv => (cv.1, 2023, cv.2)) := by decide
example : lookupVal "A" 2024 (simulate_growth (fun _ => 0) 2024 1 (1/2) (1/2) [("A", 2023, 4)])
    = some 6 := by with_unfolding_all decide

/-! ### Store-level lemmas -/

lemma lookupVal_insertOrReplace_self (c : String) (y : ℤ) (v : ℤ) (s : Store) :
    lookupVal c y (insertOrReplace c y v s) = some v := by
  unfold lookupVal insertOrReplace
  rw [List.filter_append, List.filter_filter]
  have h1 : (s.filter fun r =>
      decide (r.1 = c ∧ r.2.1 = y) && !decide (r.1 = c ∧ r.2.1 = y)) = [] := by
    simp only [Bool.and_not_self]
    exact List.filter_false s
  rw [h1, List.nil_append]
  simp [List.filter]

lemma lookupVal_insertOrReplace_ne (c' c : String) (y' y : ℤ) (v : ℤ) (s : Store)
    (h : ¬(c' = c ∧ y' = y)) :
    lookupVal c' y' (insertOrReplace c y v s) = lookupVal c' y' s := by
  unfold lookupVal insertOrReplace
  rw [List.filter_append, List.filter_filter]
  have h2 : List.filter (fun r => decide (r.1 = c' ∧ r.2.1 = y')) [(c, y, v)] = [] := by
    rw [List.filter_cons_of_neg, List.filter_nil]
    simp only [decide_eq_true_eq]
    rintro ⟨ha, hb⟩
    exact h ⟨ha.symm, hb.symm⟩
  have h3 : (s.filter fun r =>
      decide (r.1 = c' ∧ r.2.1 = y') && !decide (r.1 = c ∧ r.2.1 = y)) =
      s.filter fun r => decide (r.1 = c' ∧ r.2.1 = y') := by
    apply List.filter_congr
    intro r _
    by_cases hk : r.1 = c' ∧ r.2.1 = y'
    · have hnk : ¬(r.1 = c ∧ r.2.1 = y) := by
        rintro ⟨ha, hb⟩
        exact h ⟨hk.1.symm.trans ha, hk.2.symm.trans hb⟩
      simp [hk, hnk]
      exact not_and_or.1 h
    · simp [hk]
  rw [h2, h3, List.append_nil]

lemma rowsOf_insertOrReplace_ne (c' c : String) (y : ℤ) (v : ℤ) (s : Store)
    (h : c' ≠ c) :
    rowsOf c' (insertOrReplace c y v s) = rowsOf c' s := by
  unfold rowsOf insertOrReplace
  rw [List.filter_append, List.filter_filter]
  have h2 : List.filter (fun r => decide (r.1 = c')) [(c, y, v)] = [] := by
    rw [List.filter_cons_of_neg, List.filter_nil]
    simp only [decide_eq_true_eq]
    exact fun hc => h hc.symm
  have h3 : (s.filter fun r =>
      decide (r.1 = c') && !decide (r.1 = c ∧ r.2.1 = y)) =
      s.filter fun r => decide (r.1 = c') := by
    apply List.filter_congr
    intro r _
    by_cases hk : r.1 = c'
    · have hnk : ¬(r.1 = c ∧ r.2.1 = y) := by
        rintro ⟨ha, _⟩
        exact h (hk.symm.trans ha)
      simp [hk, hnk]
      exact Or.inl h
    · simp [hk]
  rw [h2, h3, List.append_nil]

lemma mem_insertOrReplace (r : Row) (c : String) (y : ℤ) (v : ℤ) (s : Store)
    (h : r ∈ insertOrReplace c y v s) : r ∈ s ∨ r = (c, y, v) := by
  unfold insertOrReplace at h
  rcases List.mem_append.1 h with h | h
  · exact Or.inl (List.mem_of_mem_filter h)
  · simp at h
    exact Or.inr h

/-! ### Seeding lemmas -/

lemma insertOrIgnore_of_hasKey (c : String) (y : ℤ) (v : ℤ) (s : Store)
    (h : hasKey c y s = true) : insertOrIgnore c y v s = s := by
  simp [insertOrIgnore, h]

lemma hasKey_insertOrIgnore_mono (c c' : String) (y y' : ℤ) (v' : ℤ) (s : Store)
    (h : hasKey c y s = true) : hasKey c y (insertOrIgnore c' y' v' s) = true := by
  unfold insertOrIgnore
  split
  · exact h
  · simpa [hasKey, List.any_append] using Or.inl (by simpa [hasKey] using h)

lemma hasKey_insertOrIgnore_self (c : String) (y : ℤ) (v : ℤ) (s : Store) :
    hasKey c y (insertOrIgnore c y v s) = true := by
  unfold insertOrIgnore
  split
  · assumption
  · simp [hasKey, List.any_append]

lemma seedFold_hasKey_mono (l : List (String × ℤ)) (c : String) (y : ℤ) :
    ∀ s : Store, hasKey c y s = true → hasKey c y (seedFold l s) = true := by
  induction l with
  | nil => intro s h; exact h
  | cons cv rest ih =>
    intro s h
    exact ih _ (hasKey_insertOrIgnore_mono _ _ _ _ _ _ h)

lemma seedFold_hasKey_all (l : List (String × ℤ)) :
    ∀ s : Store, ∀ cv ∈ l, hasKey cv.1 2023 (seedFold l s) = true := by
  induction l with
  | nil => intro s cv h; exact absurd h (List.not_mem_nil cv)
  | cons hd rest ih =>
    intro s cv hm
    rcases List.mem_cons.1 hm with h | h
    · subst h
      exact seedFold_hasKey_mono rest cv.1 2023 _ (hasKey_insertOrIgnore_self _ _ _ _)
    · exact ih _ cv h

lemma seedFold_noop (l : List (String × ℤ)) :
    ∀ S : Store, (∀ cv ∈ l, hasKey cv.1 2023 S = true) → seedFold l S = S := by
  induction l with
  | nil => intro S _; rfl
  | cons hd rest ih =>
    intro S h
    have h1 : insertOrIgnore hd.1 2023 hd.2 S = S :=
      insertOrIgnore_of_hasKey _ _ _ _ (h hd (List.mem_cons_self hd rest))
    show seedFold rest (insertOrIgnore hd.1 2023 hd.2 S) = S
    rw [h1]
    exact ih S (fun cv hm => h cv (List.mem_cons_of_mem hd hm))

/-! ### Rate and rounding lemmas -/

lemma uniform_same (r x : ℚ) : uniform r r x = r := by
  simp [uniform]

lemma roundHalfEven_intCast (z : ℤ) : roundHalfEven (z : ℚ) = z := by
  have hden : (((z : ℚ).den : ℤ)) = (1 : ℤ) := by
    rw [Rat.den_intCast]
    rfl
  simp only [roundHalfEven, Rat.num_intCast, hden, Int.ediv_one]
  norm_num

/-! ### Lemmas on the inner (per-city) loop -/

lemma cityYears_frame (u : ℕ → ℚ) (rmin rmax : ℚ) (city : String) :
    ∀ (n : ℕ) (sy : ℤ) (k : ℕ) (pop : ℤ) (s : Store) (c : String) (y : ℤ),
    (c ≠ city ∨ y < sy) →
    lookupVal c y (cityYears u rmin rmax city n sy k pop s) = lookupVal c y s := by
  intro n
  induction n with
  | zero => intro sy k pop s c y _; rfl
  | succ m ih =>
    intro sy k pop s c y h
    simp only [cityYears]
    rw [ih (sy + 1) (k + 1) _ _ c y ?_, lookupVal_insertOrReplace_ne]
    · rintro ⟨rfl, rfl⟩
      rcases h with h | h
      · exact h rfl
      · exact absurd h (lt_irrefl y)
    · rcases h with h | h
      · exact Or.inl h
      · exact Or.inr (h.trans (lt_add_one sy))

lemma rowsOf_cityYears_ne (u : ℕ → ℚ) (rmin rmax : ℚ) (city : String) :
    ∀ (n : ℕ) (sy : ℤ) (k : ℕ) (pop : ℤ) (s : Store) (c : String),
    c ≠ city →
    rowsOf c (cityYears u rmin rmax city n sy k pop s) = rowsOf c s := by
  intro n
  induction n with
  | zero => intro sy k pop s c _; rfl
  | succ m ih =>
    intro sy k pop s c h
    simp only [cityYears]
    rw [ih (sy + 1) (k + 1) _ _ c h, rowsOf_insertOrReplace_ne _ _ _ _ _ h]

lemma valAfter_shift (u : ℕ → ℚ) (rmin rmax : ℚ) :
    ∀ (j : ℕ) (k : ℕ) (pop : ℤ),
    valAfter u rmin rmax k (j + 1) pop =
    valAfter u rmin rmax (k + 1) j
      (max 1 (roundHalfEven ((pop : ℚ) * (1 + uniform rmin rmax (u k))))) := by
  intro j
  induction j with
  | zero =>
    intro k pop
    simp [valAfter]
  | succ m ih =>
    intro k pop
    have e1 : valAfter u rmin rmax k (m + 1 + 1) pop
        = max 1 (roundHalfEven ((valAfter u rmin rmax k (m + 1) pop : ℚ)
            * (1 + uniform rmin rmax (u (k + (m + 1)))))) := rfl
    have e2 : valAfter u rmin rmax (k + 1) (m + 1)
          (max 1 (roundHalfEven ((pop : ℚ) * (1 + uniform rmin rmax (u k)))))
        = max 1 (roundHalfEven ((valAfter u rmin rmax (k + 1) m
            (max 1 (roundHalfEven ((pop : ℚ) * (1 + uniform rmin rmax (u k))))) : ℚ)
            * (1 + uniform rmin rmax (u (k + 1 + m))))) := rfl
    rw [e1, e2, ih k pop]
    have e3 : k + (m + 1) = k + 1 + m := by omega
    rw [e3]

lemma cityYears_lookup (u : ℕ → ℚ) (rmin rmax : ℚ) (city : String) :
    ∀ (n : ℕ) (j : ℕ) (sy : ℤ) (k : ℕ) (pop : ℤ) (s : Store), j < n →
    lookupVal city (sy + (j : ℤ)) (cityYears u rmin rmax city n sy k pop s)
      = some (valAfter u rmin rmax k (j + 1) pop) := by
  intro n
  induction n with
  | zero => intro j sy k pop s hj; exact absurd hj (Nat.not_lt_zero j)
  | succ m ih =>
    intro j sy k pop s hj
    simp only [cityYears]
    cases j with
    | zero =>
      have h0 : sy + ((0 : ℕ) : ℤ) = sy := by simp
      rw [h0, cityYears_frame u rmin rmax city m (sy + 1) (k + 1) _ _ city sy
        (Or.inr (lt_add_one sy)), lookupVal_insertOrReplace_self]
      simp [valAfter]
    | succ j' =>
      have hj' : j' < m := Nat.lt_of_succ_lt_succ hj
      have hy : sy + ((j' + 1 : ℕ) : ℤ) = (sy + 1) + (j' : ℤ) := by push_cast; ring
      rw [hy, ih j' (sy + 1) (k + 1) _ _ hj', ← valAfter_shift]

lemma mem_cityYears (u : ℕ → ℚ) (rmin rmax : ℚ) (city : String) :
    ∀ (n : ℕ) (sy : ℤ) (k : ℕ) (pop : ℤ) (s : Store) (r : Row),
    r ∈ cityYears u rmin rmax city n sy k pop s → r ∈ s ∨ 1 ≤ r.2.2 := by
  intro n
  induction n with
  | zero => intro sy k pop s r h; exact Or.inl h
  | succ m ih =>
    intro sy k pop s r h
    simp only [cityYears] at h
    rcases ih (sy + 1) (k + 1) _ _ r h with h2 | h2
    · rcases mem_insertOrReplace r city sy _ s h2 with h3 | h3
      · exact Or.inl h3
      · refine Or.inr ?_
        rw [h3]
        exact le_max_left 1 _
    · exact Or.inr h2

lemma rowsOf_insertOrReplace_self_of_not_mem (c : String) (y : ℤ) (v : ℤ) (s : Store)
    (h : y ∉ yearsOf c s) :
    rowsOf c (insertOrReplace c y v s) = rowsOf c s ++ [(c, y, v)] := by
  unfold rowsOf insertOrReplace
  rw [List.filter_append, List.filter_filter]
  have h2 : List.filter (fun r => decide (r.1 = c)) [(c, y, v)] = [(c, y, v)] := by
    simp
  rw [h2]
  congr 1
  apply List.filter_congr
  intro r hr
  by_cases hk : r.1 = c
  · have hny : r.2.1 ≠ y := by
      intro hy
      apply h
      unfold yearsOf rowsOf
      exact List.mem_map.2 ⟨r, List.mem_filter.2 ⟨hr, by simp [hk]⟩, hy⟩
    simp [hk, hny]
  · simp [hk]

lemma yearsOf_insertOrReplace_self_of_not_mem (c : String) (y : ℤ) (v : ℤ) (s : Store)
    (h : y ∉ yearsOf c s) :
    yearsOf c (insertOrReplace c y v s) = yearsOf c s ++ [y] := by
  unfold yearsOf
  rw [rowsOf_insertOrReplace_self_of_not_mem c y v s h, List.map_append]
  rfl

lemma range_map_shift (sy : ℤ) (m : ℕ) :
    (List.range (m + 1)).map (fun j : ℕ => sy + (j : ℤ))
      = sy :: (List.range m).map (fun j : ℕ => (sy + 1) + (j : ℤ)) := by
  rw [List.range_succ_eq_map, List.map_cons, List.map_map]
  congr 1
  · simp
  · apply List.map_congr_left
    intro a _
    simp only [Function.comp_apply, Nat.succ_eq_add_one]
    push_cast
    ring

lemma yearsOf_cityYears (u : ℕ → ℚ) (rmin rmax : ℚ) (city : String) :
    ∀ (n : ℕ) (sy : ℤ) (k : ℕ) (pop : ℤ) (s : Store),
    (∀ y ∈ yearsOf city s, y < sy) →
    yearsOf city (cityYears u rmin rmax city n sy k pop s)
      = yearsOf city s ++ (List.range n).map (fun j : ℕ => sy + (j : ℤ)) := by
  intro n
  induction n with
  | zero => intro sy k pop s _; simp [cityYears]
  | succ m ih =>
    intro sy k pop s h
    simp only [cityYears]
    have hnm : sy ∉ yearsOf city s := fun hm => absurd (h sy hm) (lt_irrefl sy)
    have hpre : ∀ y ∈ yearsOf city (insertOrReplace city sy
        (max 1 (roundHalfEven ((pop : ℚ) * (1 + uniform rmin rmax (u k))))) s),
        y < sy + 1 := by
      intro y hy
      rw [yearsOf_insertOrReplace_self_of_not_mem city sy _ s hnm] at hy
      rcases List.mem_append.1 hy with hy | hy
      · exact (h y hy).trans (lt_add_one sy)
      · simp at hy
        rw [hy]
        exact lt_add_one sy
    rw [ih (sy + 1) (k + 1) _ _ hpre,
      yearsOf_insertOrReplace_self_of_not_mem city sy _ s hnm,
      range_map_shift, List.append_assoc]
    rfl

/-! ### Lemmas on the outer (per-city) fold -/

lemma simFold_frame (u : ℕ → ℚ) (sy : ℤ) (n : ℕ) (rmin rmax : ℚ) :
    ∀ (l : List (String × ℤ)) (s : Store) (k : ℕ) (c : String) (y : ℤ),
    (c ∉ l.map Prod.fst ∨ y < sy) →
    lookupVal c y (simFold u sy n rmin rmax l s k) = lookupVal c y s := by
  intro l
  induction l with
  | nil => intro s k c y _; rfl
  | cons hd rest ih =>
    intro s k c y h
    have h1 : c ∉ List.map Prod.fst rest ∨ y < sy := by
      rcases h with h | h
      · rw [List.map_cons] at h
        exact Or.inl (fun hm => h (List.mem_cons_of_mem _ hm))
      · exact Or.inr h
    have h2 : c ≠ hd.1 ∨ y < sy := by
      rcases h with h | h
      · rw [List.map_cons] at h
        refine Or.inl (fun hc => h ?_)
        rw [hc]
        exact List.mem_cons_self _ _
      · exact Or.inr h
    show lookupVal c y (simFold u sy n rmin rmax rest
      (cityYears u rmin rmax hd.1 n sy k hd.2 s) (k + n)) = _
    rw [ih _ (k + n) c y h1, cityYears_frame u rmin rmax hd.1 n sy k hd.2 s c y h2]

lemma rowsOf_simFold_ne (u : ℕ → ℚ) (sy : ℤ) (n : ℕ) (rmin rmax : ℚ) :
    ∀ (l : List (String × ℤ)) (s : Store) (k : ℕ) (c : String),
    c ∉ l.map Prod.fst →
    rowsOf c (simFold u sy n rmin rmax l s k) = rowsOf c s := by
  intro l
  induction l with
  | nil => intro s k c _; rfl
  | cons hd rest ih =>
    intro s k c h
    rw [List.map_cons] at h
    have h1 : c ∉ List.map Prod.fst rest := fun hm => h (List.mem_cons_of_mem _ hm)
    have h2 : c ≠ hd.1 := by
      intro hc
      apply h
      rw [hc]
      exact List.mem_cons_self _ _
    show rowsOf c (simFold u sy n rmin rmax rest
      (cityYears u rmin rmax hd.1 n sy k hd.2 s) (k + n)) = _
    rw [ih _ (k + n) c h1, rowsOf_cityYears_ne u rmin rmax hd.1 n sy k hd.2 s c h2]

lemma mem_simFold (u : ℕ → ℚ) (sy : ℤ) (n : ℕ) (rmin rmax : ℚ) :
    ∀ (l : List (String × ℤ)) (s : Store) (k : ℕ) (r : Row),
    r ∈ simFold u sy n rmin rmax l s k → r ∈ s ∨ 1 ≤ r.2.2 := by
  intro l
  induction l with
  | nil => intro s k r h; exact Or.inl h
  | cons hd rest ih =>
    intro s k r h
    rcases ih _ (k + n) r h with h2 | h2
    · exact mem_cityYears u rmin rmax hd.1 n sy k hd.2 s r h2
    · exact Or.inr h2

lemma simFold_lookup (u : ℕ → ℚ) (sy : ℤ) (n : ℕ) (rmin rmax : ℚ) :
    ∀ (l : List (String × ℤ)) (s : Store) (k : ℕ) (i : ℕ) (hi : i < l.length) (j : ℕ),
    (l.map Prod.fst).Nodup → j < n →
    lookupVal (l.get ⟨i, hi⟩).1 (sy + (j : ℤ)) (simFold u sy n rmin rmax l s k)
      = some (valAfter u rmin rmax (k + i * n) (j + 1) (l.get ⟨i, hi⟩).2) := by
  intro l
  induction l with
  | nil => intro s k i hi; exact absurd hi (Nat.not_lt_zero i)
  | cons hd rest ih =>
    intro s k i hi j hnd hj
    rw [List.map_cons, List.nodup_cons] at hnd
    cases i with
    | zero =>
      show lookupVal hd.1 (sy + (j : ℤ)) (simFold u sy n rmin rmax rest
        (cityYears u rmin rmax hd.1 n sy k hd.2 s) (k + n)) = _
      rw [simFold_frame u sy n rmin rmax rest _ (k + n) hd.1 _ (Or.inl hnd.1),
        cityYears_lookup u rmin rmax hd.1 n j sy k hd.2 s hj]
      norm_num
    | succ i' =>
      have hi' : i' < rest.length := Nat.lt_of_succ_lt_succ hi
      show lookupVal (rest.get ⟨i', hi'⟩).1 (sy + (j : ℤ)) (simFold u sy n rmin rmax rest
        (cityYears u rmin rmax hd.1 n sy k hd.2 s) (k + n)) = _
      rw [ih _ (k + n) i' hi' j hnd.2 hj]
      have e : k + n + i' * n = k + (i' + 1) * n := by ring
      rw [e]
      rfl

lemma yearsOf_simFold (u : ℕ → ℚ) (sy : ℤ) (n : ℕ) (rmin rmax : ℚ) :
    ∀ (l : List (String × ℤ)) (s : Store) (k : ℕ) (i : ℕ) (hi : i < l.length),
    (l.map Prod.fst).Nodup →
    (∀ y ∈ yearsOf (l.get ⟨i, hi⟩).1 s, y < sy) →
    yearsOf (l.get ⟨i, hi⟩).1 (simFold u sy n rmin rmax l s k)
      = yearsOf (l.get ⟨i, hi⟩).1 s
        ++ (List.range n).map (fun j : ℕ => sy + (j : ℤ)) := by
  intro l
  induction l with
  | nil => intro s k i hi; exact absurd hi (Nat.not_lt_zero i)
  | cons hd rest ih =>
    intro s k i hi hnd hpre
    rw [List.map_cons, List.nodup_cons] at hnd
    cases i with
    | zero =>
      show yearsOf hd.1 (simFold u sy n rmin rmax rest
        (cityYears u rmin rmax hd.1 n sy k hd.2 s) (k + n)) = _
      have hfr : rowsOf hd.1 (simFold u sy n rmin rmax rest
          (cityYears u rmin rmax hd.1 n sy k hd.2 s) (k + n))
          = rowsOf hd.1 (cityYears u rmin rmax hd.1 n sy k hd.2 s) :=
        rowsOf_simFold_ne u sy n rmin rmax rest _ (k + n) hd.1 hnd.1
      unfold yearsOf
      rw [hfr]
      have hy := yearsOf_cityYears u rmin rmax hd.1 n sy k hd.2 s hpre
      unfold yearsOf at hy
      exact hy
    | succ i' =>
      have hi' : i' < rest.length := Nat.lt_of_succ_lt_succ hi
      have hc : (rest.get ⟨i', hi'⟩).1 ≠ hd.1 := by
        intro hc
        apply hnd.1
        rw [← hc]
        exact List.mem_map.2 ⟨rest.get ⟨i', hi'⟩, List.get_mem rest i' hi', rfl⟩
      have hrows : rowsOf (rest.get ⟨i', hi'⟩).1
          (cityYears u rmin rmax hd.1 n sy k hd.2 s)
          = rowsOf (rest.get ⟨i', hi'⟩).1 s :=
        rowsOf_cityYears_ne u rmin rmax hd.1 n sy k hd.2 s _ hc
      show yearsOf (rest.get ⟨i', hi'⟩).1 (simFold u sy n rmin rmax rest
        (cityYears u rmin rmax hd.1 n sy k hd.2 s) (k + n)) = _
      rw [ih _ (k + n) i' hi' hnd.2 ?_]
      · unfold yearsOf
        rw [hrows]
        rfl
      · intro y hy
        apply hpre y
        unfold yearsOf at hy ⊢
        rwa [hrows] at hy

/-! ### Stream congruence: each run consumes a fixed draw prefix -/

lemma cityYears_congr (u₁ u₂ : ℕ → ℚ) (rmin rmax : ℚ) (city : String) :
    ∀ (n : ℕ) (sy : ℤ) (k : ℕ) (pop : ℤ) (s : Store),
    (∀ m, k ≤ m → m < k + n → u₁ m = u₂ m) →
    cityYears u₁ rmin rmax city n sy k pop s
      = cityYears u₂ rmin rmax city n sy k pop s := by
  intro n
  induction n with
  | zero => intro sy k pop s _; rfl
  | succ m ih =>
    intro sy k pop s h
    simp only [cityYears]
    have hk : u₁ k = u₂ k := h k (le_refl k) (by omega)
    rw [hk]
    exact ih (sy + 1) (k + 1) _ _ (fun m2 h1 h2 => h m2 (by omega) (by omega))

lemma simFold_congr (u₁ u₂ : ℕ → ℚ) (sy : ℤ) (n : ℕ) (rmin rmax : ℚ) :
    ∀ (l : List (String × ℤ)) (s : Store) (k : ℕ),
    (∀ m, m < k + l.length * n → u₁ m = u₂ m) →
    simFold u₁ sy n rmin rmax l s k = simFold u₂ sy n rmin rmax l s k := by
  intro l
  induction l with
  | nil => intro s k _; rfl
  | cons hd rest ih =>
    intro s k h
    simp only [List.length_cons] at h
    have e : (rest.length + 1) * n = rest.length * n + n := by ring
    show simFold u₁ sy n rmin rmax rest
        (cityYears u₁ rmin rmax hd.1 n sy k hd.2 s) (k + n)
      = simFold u₂ sy n rmin rmax rest
        (cityYears u₂ rmin rmax hd.1 n sy k hd.2 s) (k + n)
    rw [cityYears_congr u₁ u₂ rmin rmax hd.1 n sy k hd.2 s
      (fun m h1 h2 => h m (by omega))]
    exact ih _ (k + n) (fun m hm => h m (by omega))

lemma valAfter_one (u : ℕ → ℚ) (r : ℚ) (k : ℕ) (V : ℤ) :
    valAfter u r r k 1 V = max 1 (roundHalfEven ((V : ℚ) * (1 + r))) := by
  simp [valAfter, uniform_same]

lemma valAfter_rate_zero (u : ℕ → ℚ) (k : ℕ) (v : ℤ) (hv : 1 ≤ v) :
    ∀ j, valAfter u 0 0 k j v = v := by
  intro j
  induction j with
  | zero => rfl
  | succ m ih =>
    show max 1 (roundHalfEven ((valAfter u 0 0 k m v : ℚ)
      * (1 + uniform 0 0 (u (k + m))))) = v
    rw [ih, uniform_same]
    have e : ((v : ℤ) : ℚ) * (1 + 0) = ((v : ℤ) : ℚ) := by ring
    rw [e, roundHalfEven_intCast]
    exact max_eq_right hv

/-! ### Claim theorems -/

/-- C1: for a fixed seed (hence a fixed draw stream — two streams that agree
on the consumed prefix of `|base_values| * horizon` draws), fixed base-value
order, fixed `start_year`/`horizon`/rate bounds, two simulation runs against
the same store produce exactly the same (entity, year, value) table:
`simulate_growth` is a deterministic function of those inputs. -/
theorem simulate_growth_deterministic (u₁ u₂ : ℕ → ℚ) (start_year : ℤ) (years : ℕ)
    (rmin rmax : ℚ) (s : Store)
    (h : ∀ m, m < (baseRows s).length * years → u₁ m = u₂ m) :
    simulate_growth u₁ start_year years rmin rmax s
      = simulate_growth u₂ start_year years rmin rmax s := by
  unfold simulate_growth
  exact simFold_congr u₁ u₂ start_year years rmin rmax (baseRows s) s 0
    (fun m hm => h m (by omega))

theorem simulate_growth_deterministic_witness :
    (∀ m : ℕ, m < (baseRows [(("A" : String), (2023 : ℤ), (10 : ℤ))]).length * 3 →
        (fun _ : ℕ => (0 : ℚ)) m = (fun m : ℕ => if m < 3 then (0 : ℚ) else 7) m)
    ∧ simulate_growth (fun _ : ℕ => (0 : ℚ)) 2024 3 0 0 [("A", 2023, 10)]
      = simulate_growth (fun m : ℕ => if m < 3 then (0 : ℚ) else 7) 2024 3 0 0
          [("A", 2023, 10)] := by
  have hlen : (baseRows [(("A" : String), (2023 : ℤ), (10 : ℤ))]).length = 1 := rfl
  have hstream : ∀ m : ℕ,
      m < (baseRows [(("A" : String), (2023 : ℤ), (10 : ℤ))]).length * 3 →
      (fun _ : ℕ => (0 : ℚ)) m = (fun m : ℕ => if m < 3 then (0 : ℚ) else 7) m := by
    intro m hm
    rw [hlen] at hm
    have h3 : m < 3 := by omega
    simp [h3]
  exact ⟨hstream, simulate_growth_deterministic _ _ 2024 3 0 0 _ hstream⟩

/-- C2: provided `rate_min ≥ -1`, every row the simulator writes (that is,
every row of the output store that was not already in the input store) has
value at least 1: the update `max(1, round(pop * (1 + rate)))` clamps every
written value, including when the base value is 0. -/
theorem simulate_growth_floor (u : ℕ → ℚ) (start_year : ℤ) (years : ℕ)
    (rmin rmax : ℚ) (s : Store) (hrate : (-1 : ℚ) ≤ rmin) (r : Row)
    (hr : r ∈ simulate_growth u start_year years rmin rmax s) :
    r ∈ s ∨ 1 ≤ r.2.2 :=
  mem_simFold u start_year years rmin rmax (baseRows s) s 0 r hr

theorem simulate_growth_floor_witness :
    (-1 : ℚ) ≤ -1
    ∧ (("A", 2024, 1) : Row) ∈ simulate_growth (fun _ => 0) 2024 1 (-1) (-1)
        [("A", 2023, 0)]
    ∧ ((("A", 2024, 1) : Row) ∈ ([("A", 2023, 0)] : Store)
        ∨ 1 ≤ ((("A", 2024, 1) : Row)).2.2) := by
  have hmem : (("A", 2024, 1) : Row) ∈ simulate_growth (fun _ => 0) 2024 1 (-1) (-1)
      [("A", 2023, 0)] := by
    with_unfolding_all decide
  exact ⟨le_refl _, hmem,
    simulate_growth_floor (fun _ => 0) 2024 1 (-1) (-1) _ (le_refl _) _ hmem⟩

/-- C6: seeding is idempotent: since every `INSERT OR IGNORE` is a no-op when
the (city, 2023) key already exists, running `insert_2023_data` a second time
leaves the store exactly as after the first run, for every starting store. -/
theorem insert_2023_data_idempotent (s : Store) :
    insert_2023_data (insert_2023_data s) = insert_2023_data s :=
  seedFold_noop cities2023 _ (seedFold_hasKey_all cities2023 s)

/-- C8: when the store lists no entities, `show_city_plot` reports the
no-cities condition, consumes no input line (no prompt), raises nothing and
leaves the store unchanged. -/
theorem show_city_plot_empty (s : Store) (inputs : List String)
    (h : distinctCities s = []) :
    show_city_plot s inputs = (PlotResult.noCities, inputs, s) := by
  unfold show_city_plot
  rw [if_pos h]

theorem show_city_plot_empty_witness :
    distinctCities ([] : Store) = []
    ∧ show_city_plot ([] : Store) ["x"] = (PlotResult.noCities, ["x"], ([] : Store)) :=
  ⟨rfl, show_city_plot_empty [] ["x"] rfl⟩

/-- C10: `simulate_growth` draws its base values exclusively from rows whose
year is the literal 2023: a city all of whose rows lie in other years is not
simulated at all — its rows are untouched — and this holds for every value of
`start_year` (and of the other parameters), since the base-row query never
consults them. -/
theorem simulate_growth_base_is_2023 (u : ℕ → ℚ) (start_year : ℤ) (years : ℕ)
    (rmin rmax : ℚ) (s : Store) (E : String)
    (h : ∀ r ∈ s, r.1 = E → r.2.1 ≠ 2023) :
    rowsOf E (simulate_growth u start_year years rmin rmax s) = rowsOf E s := by
  unfold simulate_growth
  apply rowsOf_simFold_ne
  intro hm
  unfold baseRows at hm
  rw [List.map_map] at hm
  rcases List.mem_map.1 hm with ⟨r, hr, hrE⟩
  simp only [Function.comp_apply] at hrE
  have hrs : r ∈ s := List.mem_of_mem_filter hr
  have hr2023 : r.2.1 = 2023 := by
    have h2 := (List.mem_filter.1 hr).2
    simpa using h2
  exact h r hrs hrE hr2023

theorem simulate_growth_base_is_2023_witness :
    (∀ r ∈ ([(("A" : String), (2020 : ℤ), (7 : ℤ))] : Store), r.1 = "A" → r.2.1 ≠ 2023)
    ∧ rowsOf "A" (simulate_growth (fun _ => 0) 2024 2 0 0 [("A", 2020, 7)])
      = rowsOf "A" ([("A", 2020, 7)] : Store) :=
  ⟨by decide, simulate_growth_base_is_2023 (fun _ => 0) 2024 2 0 0 _ "A" (by decide)⟩

/-- C3: for every entity E with base value V (a year-2023 row of the store,
with base cities pairwise distinct as the primary key guarantees), a run with
horizon 1 and the degenerate rate distribution fixed at `r`
(`rate_min = rate_max = r`, so `uniform` returns exactly `r` whatever the
draw) stores exactly `max(1, round(V * (1 + r)))` for the single simulated
year. -/
theorem simulate_growth_horizon_one (u : ℕ → ℚ) (start_year : ℤ) (r : ℚ) (s : Store)
    (E : String) (V : ℤ)
    (hnd : ((baseRows s).map Prod.fst).Nodup)
    (hEV : (E, V) ∈ baseRows s) :
    lookupVal E start_year (simulate_growth u start_year 1 r r s)
      = some (max 1 (roundHalfEven ((V : ℚ) * (1 + r)))) := by
  obtain ⟨⟨i, hi⟩, hget⟩ := List.get_of_mem hEV
  have h := simFold_lookup u start_year 1 r r (baseRows s) s 0 i hi 0 hnd Nat.one_pos
  rw [hget] at h
  have e0 : start_year + ((0 : ℕ) : ℤ) = start_year := by simp
  rw [e0] at h
  simp only [Nat.zero_add, Nat.mul_one] at h
  rw [valAfter_one] at h
  unfold simulate_growth
  exact h

theorem simulate_growth_horizon_one_witness :
    ((baseRows [(("B" : String), (2023 : ℤ), (5 : ℤ))]).map Prod.fst).Nodup
    ∧ (("B", 5) : String × ℤ) ∈ baseRows [(("B" : String), (2023 : ℤ), (5 : ℤ))]
    ∧ lookupVal "B" 2030 (simulate_growth (fun _ => 1/3) 2030 1 (1/2) (1/2)
        [("B", 2023, 5)])
      = some (max 1 (roundHalfEven (((5 : ℤ) : ℚ) * (1 + 1/2)))) :=
  ⟨by decide, by decide,
    simulate_growth_horizon_one (fun _ => 1/3) 2030 (1/2) _ "B" 5 (by decide) (by decide)⟩

/-- C5: the generator is seeded once and shared: the value stored for the
`i`-th base entity at year `start_year + j` is `valAfter` started at draw
index `i * years`, i.e. it consumes exactly the unit draws
`u (i*years), …, u (i*years + j)`.  All of entity `i`'s `years` draws precede
every draw of entity `i+1` (entity-major, year-minor), so changing the
horizon or the entity order shifts every later entity's drawn rates. -/
theorem simulate_growth_draw_order (u : ℕ → ℚ) (start_year : ℤ) (years : ℕ)
    (rmin rmax : ℚ) (s : Store) (i : ℕ) (hi : i < (baseRows s).length) (j : ℕ)
    (hnd : ((baseRows s).map Prod.fst).Nodup) (hj : j < years) :
    lookupVal ((baseRows s).get ⟨i, hi⟩).1 (start_year + (j : ℤ))
      (simulate_growth u start_year years rmin rmax s)
      = some (valAfter u rmin rmax (i * years) (j + 1)
          ((baseRows s).get ⟨i, hi⟩).2) := by
  have h := simFold_lookup u start_year years rmin rmax (baseRows s) s 0 i hi j hnd hj
  rw [Nat.zero_add] at h
  exact h

theorem simulate_growth_draw_order_witness :
    ((baseRows [(("A" : String), (2023 : ℤ), (2 : ℤ)),
        (("B" : String), (2023 : ℤ), (3 : ℤ))]).map Prod.fst).Nodup
    ∧ (1 : ℕ) < 2
    ∧ lookupVal ((baseRows [(("A" : String), (2023 : ℤ), (2 : ℤ)),
          (("B" : String), (2023 : ℤ), (3 : ℤ))]).get ⟨1, by decide⟩).1
        (2024 + ((1 : ℕ) : ℤ))
        (simulate_growth (fun _ => 0) 2024 2 0 1
          [("A", 2023, 2), ("B", 2023, 3)])
      = some (valAfter (fun _ => 0) 0 1 (1 * 2) (1 + 1)
          ((baseRows [(("A" : String), (2023 : ℤ), (2 : ℤ)),
            (("B" : String), (2023 : ℤ), (3 : ℤ))]).get ⟨1, by decide⟩).2) :=
  ⟨by decide, by decide,
    simulate_growth_draw_order (fun _ => 0) 2024 2 0 1
      [("A", 2023, 2), ("B", 2023, 3)] 1 (by decide) 1 (by decide) (by decide)⟩

/-- C9: with the seeded base value 985000 for Jacksonville and the rate
distribution pinned at 0 (`rate_min = rate_max = 0`), every simulated year of
the default 20-year horizon stores exactly 985000: multiplying by `1 + 0`,
rounding (the integer is a fixed point of banker's rounding) and the floor
of 1 leave 985000 unchanged. -/
theorem simulate_growth_zero_rate_constant (u : ℕ → ℚ) (j : ℕ) (hj : j < 20) :
    lookupVal "Jacksonville" (2024 + (j : ℤ))
      (simulate_growth u 2024 20 0 0 (insert_2023_data []))
      = some 985000 := by
  have hbase : baseRows (insert_2023_data []) = cities2023 := by decide
  unfold simulate_growth
  rw [hbase]
  have hnd : (cities2023.map Prod.fst).Nodup := by decide
  have hi : 0 < cities2023.length := by decide
  have h := simFold_lookup u 2024 20 0 0 cities2023 (insert_2023_data []) 0 0 hi j hnd hj
  have hv1 : (1 : ℤ) ≤ (cities2023.get ⟨0, hi⟩).2 := by
    show (1 : ℤ) ≤ 985000
    decide
  rw [valAfter_rate_zero u (0 + 0 * 20) (cities2023.get ⟨0, hi⟩).2 hv1 (j + 1)] at h
  exact h

theorem simulate_growth_zero_rate_constant_witness :
    (7 : ℕ) < 20
    ∧ lookupVal "Jacksonville" (2024 + ((7 : ℕ) : ℤ))
        (simulate_growth (fun _ => 9/10) 2024 20 0 0 (insert_2023_data []))
      = some 985000 :=
  ⟨by decide, simulate_growth_zero_rate_constant (fun _ => 9/10) 7 (by decide)⟩

/-- C4: after seeding an empty store and one simulation run with the default
parameters (`start_year = 2024`, `horizon = 20`, rates in `[-0.01, 0.03)`),
every seeded city has exactly `20 + 1 = 21` rows, whose years are the
contiguous ascending range 2023…2043 starting at the base year, and the
base-year row still holds its seeded value. -/
theorem simulate_growth_series_complete (u : ℕ → ℚ) (c : String) (v : ℤ)
    (hcv : (c, v) ∈ cities2023) :
    (rowsOf c (simulate_growth u 2024 20 (-1/100) (3/100)
        (insert_2023_data []))).length = 21
    ∧ yearsOf c (simulate_growth u 2024 20 (-1/100) (3/100) (insert_2023_data []))
        = (List.range 21).map (fun j : ℕ => (2023 : ℤ) + (j : ℤ))
    ∧ lookupVal c 2023 (simulate_growth u 2024 20 (-1/100) (3/100)
        (insert_2023_data []))
        = some v := by
  obtain ⟨⟨i, hi⟩, hget⟩ := List.get_of_mem hcv
  have hc : (cities2023.get ⟨i, hi⟩).1 = c := by rw [hget]
  have hv : (cities2023.get ⟨i, hi⟩).2 = v := by rw [hget]
  subst hc
  subst hv
  have hbase : baseRows (insert_2023_data []) = cities2023 := by decide
  have hnd : (cities2023.map Prod.fst).Nodup := by decide
  have hmem : cities2023.get ⟨i, hi⟩ ∈ cities2023 := List.get_mem _ _ _
  have hall : ∀ cv ∈ cities2023, rowsOf cv.1 (insert_2023_data [])
      = [(cv.1, 2023, cv.2)] := by decide
  have hrows : rowsOf (cities2023.get ⟨i, hi⟩).1 (insert_2023_data [])
      = [((cities2023.get ⟨i, hi⟩).1, 2023, (cities2023.get ⟨i, hi⟩).2)] :=
    hall _ hmem
  have hyears0 : yearsOf (cities2023.get ⟨i, hi⟩).1 (insert_2023_data []) = [2023] := by
    unfold yearsOf
    rw [hrows]
    rfl
  have hpre : ∀ y ∈ yearsOf (cities2023.get ⟨i, hi⟩).1 (insert_2023_data []),
      y < 2024 := by
    rw [hyears0]
    intro y hy
    rw [List.mem_singleton] at hy
    subst hy
    decide
  have e21 : (List.range 21).map (fun j : ℕ => (2023 : ℤ) + (j : ℤ))
      = 2023 :: (List.range 20).map (fun j : ℕ => (2024 : ℤ) + (j : ℤ)) := by decide
  unfold simulate_growth
  rw [hbase]
  have hY : yearsOf (cities2023.get ⟨i, hi⟩).1
      (simFold u 2024 20 (-1/100) (3/100) cities2023 (insert_2023_data []) 0)
      = (List.range 21).map (fun j : ℕ => (2023 : ℤ) + (j : ℤ)) := by
    rw [yearsOf_simFold u 2024 20 (-1/100) (3/100) cities2023 _ 0 i hi hnd hpre,
      hyears0, e21]
    rfl
  refine ⟨?_, hY, ?_⟩
  · have hl := congrArg List.length hY
    unfold yearsOf at hl
    rw [List.length_map] at hl
    rw [hl, List.length_map, List.length_range]
  · rw [simFold_frame u 2024 20 (-1/100) (3/100) cities2023 _ 0 _ 2023
      (Or.inr (by norm_num))]
    have hall2 : ∀ cv ∈ cities2023, lookupVal cv.1 2023 (insert_2023_data [])
        = some cv.2 := by decide
    exact hall2 _ hmem

theorem simulate_growth_series_complete_witness :
    (("Tampa", 398000) : String × ℤ) ∈ cities2023
    ∧ ((rowsOf "Tampa" (simulate_growth (fun _ => 1/3) 2024 20 (-1/100) (3/100)
        (insert_2023_data []))).length = 21
      ∧ yearsOf "Tampa" (simulate_growth (fun _ => 1/3) 2024 20 (-1/100) (3/100)
          (insert_2023_data []))
          = (List.range 21).map (fun j : ℕ => (2023 : ℤ) + (j : ℤ))
      ∧ lookupVal "Tampa" 2023 (simulate_growth (fun _ => 1/3) 2024 20 (-1/100) (3/100)
          (insert_2023_data [])) = some 398000) :=
  ⟨by decide, simulate_growth_series_complete (fun _ => 1/3) "Tampa" 398000 (by decide)⟩

/-- C7: on a store with at least one entity, a supplied choice whose trimmed
form matches no listed entity is silently replaced by the lexicographically
first entity (the head of the sorted distinct list): the renderer plots that
entity's series, which is nonempty, rather than failing or plotting an empty
series. -/
theorem show_city_plot_fallback (s : Store) (choice : String)
    (hne : distinctCities s ≠ [])
    (hmiss : pyStrip choice ∉ distinctCities s) :
    show_city_plot s [choice]
      = (PlotResult.plotted ((distinctCities s).headD "")
          (seriesFor ((distinctCities s).headD "") s), [], s)
    ∧ seriesFor ((distinctCities s).headD "") s ≠ [] := by
  constructor
  · unfold show_city_plot
    rw [if_neg hne]
    simp only [List.headD_cons, List.tail_cons]
    rw [if_neg hmiss]
  · have hc0 : (distinctCities s).headD "" ∈ distinctCities s := by
      cases hx : distinctCities s with
      | nil => exact absurd hx hne
      | cons a t => simp
    have hmemmap : (distinctCities s).headD "" ∈ (s.map (fun r => r.1)).dedup := by
      have h0 := hc0
      unfold distinctCities at h0
      exact ((List.perm_insertionSort _ _).mem_iff).1 h0
    have hmem2 : (distinctCities s).headD "" ∈ s.map (fun r => r.1) :=
      List.mem_dedup.1 hmemmap
    rcases List.mem_map.1 hmem2 with ⟨r, hrs, hr1⟩
    intro hcon
    unfold seriesFor at hcon
    have hperm := List.perm_insertionSort (fun a b : ℤ × ℤ => a.1 ≤ b.1)
      ((rowsOf ((distinctCities s).headD "") s).map (fun r => (r.2.1, r.2.2)))
    rw [hcon] at hperm
    have hmapnil : (rowsOf ((distinctCities s).headD "") s).map
        (fun r => (r.2.1, r.2.2)) = [] := hperm.symm.eq_nil
    have hrownil : rowsOf ((distinctCities s).headD "") s = [] :=
      List.map_eq_nil_iff.1 hmapnil
    have hrin : r ∈ rowsOf ((distinctCities s).headD "") s := by
      unfold rowsOf
      exact List.mem_filter.2 ⟨hrs, by simp [hr1]⟩
    rw [hrownil] at hrin
    exact List.not_mem_nil r hrin

theorem show_city_plot_fallback_witness :
    distinctCities ([(("A" : String), (2023 : ℤ), (5 : ℤ))] : Store) ≠ []
    ∧ pyStrip "Zzz" ∉ distinctCities ([(("A" : String), (2023 : ℤ), (5 : ℤ))] : Store)
    ∧ (show_city_plot ([(("A" : String), (2023 : ℤ), (5 : ℤ))] : Store) ["Zzz"]
        = (PlotResult.plotted
            ((distinctCities ([(("A" : String), (2023 : ℤ), (5 : ℤ))] : Store)).headD "")
            (seriesFor
              ((distinctCities ([(("A" : String), (2023 : ℤ), (5 : ℤ))] : Store)).headD "")
              ([(("A" : String), (2023 : ℤ), (5 : ℤ))] : Store)),
            [], ([(("A" : String), (2023 : ℤ), (5 : ℤ))] : Store))
      ∧ seriesFor
          ((distinctCities ([(("A" : String), (2023 : ℤ), (5 : ℤ))] : Store)).headD "")
          ([(("A" : String), (2023 : ℤ), (5 : ℤ))] : Store) ≠ []) := by
  refine ⟨?h1, ?h2, show_city_plot_fallback _ "Zzz" ?h1 ?h2⟩
  case h1 => decide
  case h2 => decide
